import Mathlib

/-!
Verification of the authorization core of a multi-user document platform:
an RBAC evaluator with scope hierarchy, refresh-token rotation, rate
limiting, password reset, audit logging and a document search engine.
Python sources under `backend/app` are shallowly embedded as executable
Lean definitions; external collaborators (Redis, Postgres text search,
bcrypt) are modelled by explicit state records or oracle parameters.
-/

/-! ## RBAC data model (`app/models/permission.py`, `role.py`, `user.py`) -/

/-- A permission row: the triple `(resource, action, scope)` plus its id
(`app/models/permission.py`). Scopes are the strings `"own"`, `"team"`,
`"all"`; `"*"` is admissible for `resource` and `action`. -/
structure Permission where
  id : Nat
  resource : String
  action : String
  scope : String
deriving DecidableEq, Repr

/-- A role with its attached permissions (`app/models/role.py`). -/
structure Role where
  id : Nat
  name : String
  description : Option String
  isSystem : Bool
  permissions : List Permission
deriving DecidableEq, Repr

/-- A user with the roles they hold (`app/models/user.py`). -/
structure User where
  id : Nat
  email : String
  isActive : Bool
  passwordHash : Option String
  roles : List Role
deriving DecidableEq, Repr

/-- Lookup of a user row by id, as `select(User).where(User.id == ...)`. -/
def findUser (db : List User) (uid : Nat) : Option User :=
  db.find? (fun u => u.id == uid)

/-- The scope hierarchy of `RBACService.has_permission`
(`app/services/rbac.py` lines 173-179): `scope_hierarchy.get(s, 0)` maps
`own ↦ 0`, `team ↦ 1`, `all ↦ 2` and any other string to the default `0`. -/
def scopeRank (s : String) : Nat :=
  if s = "own" then 0
  else if s = "team" then 1
  else if s = "all" then 2
  else 0

/-- The per-permission test of the loop body in
`RBACService.has_permission` (`app/services/rbac.py` lines 181-190):
resource and action match exactly or by the `"*"` wildcard, and the held
scope's rank is at least the required rank. -/
def permMatches (resource action : String) (requiredLevel : Nat) (p : Permission) : Bool :=
  (p.resource == resource || p.resource == "*") &&
  (p.action == action || p.action == "*") &&
  decide (requiredLevel ≤ scopeRank p.scope)

/-- The deduplication loop of `RBACService.get_user_permissions`
(`app/services/rbac.py` lines 80-94): walk the permissions in order,
keeping the first occurrence of each `(resource, action, scope)` triple
(the `permissions_set` of the source). -/
def dedupByTriple : List Permission → List (String × String × String) → List Permission
  | [], _ => []
  | p :: ps, seen =>
    if (p.resource, p.action, p.scope) ∈ seen then
      dedupByTriple ps seen
    else
      p :: dedupByTriple ps ((p.resource, p.action, p.scope) :: seen)

/-- `RBACService.get_user_permissions` (`app/services/rbac.py` lines 51-103):
return the cached list when the cache holds one, otherwise reload the user
and collect the deduplicated union of permissions over all their roles.
The Redis read is modelled by the explicit `cached` argument (`none` is a
cache miss; the store is authoritative). -/
def getUserPermissions (cached : Option (List Permission)) (db : List User) (u : User) :
    List Permission :=
  match cached with
  | some perms => perms
  | none =>
    match findUser db u.id with
    | none => []
    | some uw => dedupByTriple (uw.roles.flatMap (fun r => r.permissions)) []

/-- `RBACService.has_permission` (`app/services/rbac.py` lines 151-192):
some effective permission passes `permMatches` for the required
`(resource, action, scope)`. The loop with early `return True` is the
`List.any`. -/
def hasPermission (cached : Option (List Permission)) (db : List User) (u : User)
    (resource action requiredScope : String) : Bool :=
  (getUserPermissions cached db u).any
    (permMatches resource action (scopeRank requiredScope))

/-- `RBACService.has_any_permission` (`app/services/rbac.py` lines 194-212):
early-return loop over the requested triples. -/
def hasAnyPermission (cached : Option (List Permission)) (db : List User) (u : User)
    (reqs : List (String × String × String)) : Bool :=
  reqs.any (fun t => hasPermission cached db u t.1 t.2.1 t.2.2)

/-- `RBACService.has_all_permissions` (`app/services/rbac.py` lines 214-232):
early-return-false loop over the requested triples. -/
def hasAllPermissions (cached : Option (List Permission)) (db : List User) (u : User)
    (reqs : List (String × String × String)) : Bool :=
  reqs.all (fun t => hasPermission cached db u t.1 t.2.1 t.2.2)

/-! ## Search filters and the search endpoint's ownership override
(`app/schemas/search.py`, `app/api/v1/search.py`) -/

/-- The optional search filters of `SearchFilters` (`app/schemas/search.py`):
owner, creation-date range and JSONB-containment metadata filters.
Timestamps are seconds, metadata a list of key/value pairs. -/
structure SearchFilters where
  ownerId : Option Nat
  dateFrom : Option Nat
  dateTo : Option Nat
  metaFilters : Option (List (String × String))
deriving DecidableEq, Repr

/-- The filter rewriting of the `search_documents` endpoint
(`app/api/v1/search.py` lines 57-75): when the principal lacks
`documents:read:all` the caller's filters are replaced by a copy whose
`owner_id` is the principal's id, preserving `date_from`, `date_to` and
`meta_filters`; an absent filter object becomes one holding only the
owner. The value returned here is the `filters` argument passed to
`SearchService.search`. -/
def searchDocumentsEffectiveFilters (cached : Option (List Permission)) (db : List User)
    (u : User) (req : Option SearchFilters) : Option SearchFilters :=
  if hasPermission cached db u "documents" "read" "all" then req
  else
    some (match req with
      | none =>
        { ownerId := some u.id, dateFrom := none, dateTo := none, metaFilters := none }
      | some f =>
        { ownerId := some u.id, dateFrom := f.dateFrom, dateTo := f.dateTo,
          metaFilters := f.metaFilters })

/-! ## Rate limiter (`app/core/rate_limit.py`) -/

/-- The Redis keys touched by the rate limiter for one `(identifier, action)`
pair: the `rate_limit:<action>:<identifier>` counter and the
`rate_limit_block:<action>:<identifier>` block key, each an optional value
with its absolute expiry time in seconds. -/
structure RLState where
  counter : Option (Nat × Nat)
  block : Option Nat
deriving DecidableEq, Repr

/-- The empty cache state: neither key present. -/
def emptyRL : RLState := { counter := none, block := none }

/-- Redis `TTL` of an expiring key at time `now`: the remaining seconds when
the key is live, `-2` when it is absent or already expired. -/
def ttlAt (entry : Option Nat) (now : Nat) : Int :=
  match entry with
  | none => -2
  | some e => if now < e then ((e - now : Nat) : Int) else -2

/-- Redis `GET` of the counter at time `now`: the live `(count, expiry)`
entry, `none` when absent or expired. -/
def counterAt (entry : Option (Nat × Nat)) (now : Nat) : Option (Nat × Nat) :=
  match entry with
  | none => none
  | some (c, e) => if now < e then some (c, e) else none

/-- `check_rate_limit` (`app/core/rate_limit.py` lines 25-72) as a step on
the per-`(identifier, action)` cache state at time `now`: reject while a
block key is live; on the first request set the counter to 1 with
TTL = window; once the count reaches `max_requests` set a block key with
TTL = `block_seconds`, delete the counter and reject; otherwise `INCRBY`
the counter (which keeps its TTL). Returns `(is_allowed, remaining)` with
`remaining` the remaining requests or the seconds until unblock. -/
def checkRateLimit (maxRequests windowSeconds blockSeconds : Nat) (now : Nat)
    (st : RLState) : (Bool × Int) × RLState :=
  let blockTtl := ttlAt st.block now
  if blockTtl > 0 then
    ((false, blockTtl), st)
  else
    match counterAt st.counter now with
    | none =>
      ((true, (maxRequests : Int) - 1),
       { st with counter := some (1, now + windowSeconds) })
    | some (count, expiry) =>
      if maxRequests ≤ count then
        ((false, (blockSeconds : Int)),
         { counter := none, block := some (now + blockSeconds) })
      else
        ((true, (maxRequests : Int) - count - 1),
         { st with counter := some (count + 1, expiry) })

/-- `reset_rate_limit` (`app/core/rate_limit.py` lines 75-87): delete both
the counter key and the block key. -/
def resetRateLimit (_st : RLState) : RLState := emptyRL

/-- The cache state after the first `k` attempts of a run whose `i`-th
attempt happens at time `s i`, starting from the empty state. -/
def rlStateAfter (maxRequests windowSeconds blockSeconds : Nat) (s : Nat → Nat) :
    Nat → RLState
  | 0 => emptyRL
  | k + 1 =>
    (checkRateLimit maxRequests windowSeconds blockSeconds (s k)
      (rlStateAfter maxRequests windowSeconds blockSeconds s k)).2

/-! ## JWT token service and refresh rotation (`app/services/jwt.py`,
`app/api/v1/auth.py`) -/

/-- The `type` claim of a token payload (`access` or `refresh`). -/
inductive TokenType where
  | access
  | refresh
deriving DecidableEq, Repr

/-- A JWT payload `{sub, exp, iat, type}` (`app/services/jwt.py` lines
31-36 and 54-59). The HMAC encoding of a payload with the fixed server
secret is deterministic and injective, so a token string is identified
with its payload: two token strings are equal iff their payloads are. -/
structure TokenPayload where
  sub : Nat
  exp : Nat
  iat : Nat
  type : TokenType
deriving DecidableEq, Repr

/-- JWT settings (`app/config.py`): access lifetime in minutes, refresh
lifetime in days. -/
structure JwtConfig where
  accessExpireMinutes : Nat
  refreshExpireDays : Nat
deriving DecidableEq, Repr

/-- `create_access_token` (`app/services/jwt.py` lines 18-38) issued at
`now` (seconds since the epoch). -/
def createAccessToken (cfg : JwtConfig) (now : Nat) (userId : Nat) : TokenPayload :=
  { sub := userId, exp := now + cfg.accessExpireMinutes * 60, iat := now,
    type := TokenType.access }

/-- `create_refresh_token` (`app/services/jwt.py` lines 41-61) issued at
`now`. -/
def createRefreshToken (cfg : JwtConfig) (now : Nat) (userId : Nat) : TokenPayload :=
  { sub := userId, exp := now + cfg.refreshExpireDays * 86400, iat := now,
    type := TokenType.refresh }

/-- The Redis binding `user:<id>:refresh_token → token`, one entry per
user id with its absolute expiry time. -/
abbrev RefreshStore : Type := List (Nat × TokenPayload × Nat)

/-- `store_refresh_token` (`app/services/jwt.py` lines 101-115): `SET` the
user's binding with TTL equal to the refresh lifetime. -/
def storeRefreshToken (cfg : JwtConfig) (now : Nat) (store : RefreshStore)
    (userId : Nat) (tok : TokenPayload) : RefreshStore :=
  (userId, tok, now + cfg.refreshExpireDays * 86400) ::
    store.filter (fun e => e.1 ≠ userId)

/-- `get_stored_refresh_token` (`app/services/jwt.py` lines 118-130): the
live binding for the user, `none` when absent or expired. -/
def getStoredRefreshToken (store : RefreshStore) (now : Nat) (userId : Nat) :
    Option TokenPayload :=
  match store.find? (fun e => e.1 == userId) with
  | none => none
  | some (_, tok, e) => if now < e then some tok else none

/-- `invalidate_refresh_token` (`app/services/jwt.py` lines 133-145):
delete the user's binding. -/
def invalidateRefreshToken (store : RefreshStore) (userId : Nat) : RefreshStore :=
  store.filter (fun e => e.1 ≠ userId)

/-- `validate_refresh_token` (`app/services/jwt.py` lines 148-162): the
stored binding exists and equals the presented token. -/
def validateRefreshToken (store : RefreshStore) (now : Nat) (userId : Nat)
    (presented : TokenPayload) : Bool :=
  match getStoredRefreshToken store now userId with
  | none => false
  | some stored => stored == presented

/-- Failure modes of the `/auth/refresh` endpoint (401 responses of
`app/api/v1/auth.py` lines 186-272). -/
inductive RefreshError where
  | invalidTokenType
  | tokenExpired
  | revoked
  | userNotFoundOrInactive
deriving DecidableEq, Repr

/-- The `refresh_token` endpoint (`app/api/v1/auth.py` lines 181-272),
stripped of HTTP transport: check the presented token's type and expiry
(`is_token_expired` is `now ≥ exp`), validate it against the stored
binding, check the user exists and is active, then issue a fresh
`(access, refresh)` pair at `now` and replace the stored binding. Returns
the new pair and the updated refresh store. -/
def refreshEndpoint (cfg : JwtConfig) (db : List User) (store : RefreshStore)
    (now : Nat) (presented : TokenPayload) :
    Except RefreshError (TokenPayload × TokenPayload × RefreshStore) :=
  if presented.type ≠ TokenType.refresh then
    Except.error RefreshError.invalidTokenType
  else if presented.exp ≤ now then
    Except.error RefreshError.tokenExpired
  else if ¬ validateRefreshToken store now presented.sub presented then
    Except.error RefreshError.revoked
  else
    match findUser db presented.sub with
    | none => Except.error RefreshError.userNotFoundOrInactive
    | some u =>
      if ¬ u.isActive then Except.error RefreshError.userNotFoundOrInactive
      else
        let access := createAccessToken cfg now presented.sub
        let newRefresh := createRefreshToken cfg now presented.sub
        Except.ok (access, newRefresh,
          storeRefreshToken cfg now store presented.sub newRefresh)

/-! ## Password reset service (`app/services/password_reset.py`,
`app/api/v1/auth.py` lines 397-450) -/

/-- The value stored under `password_reset:<token>`: user id, email and
issuance time (`app/services/password_reset.py` lines 59-63). -/
structure ResetData where
  userId : Nat
  email : String
  createdAt : Nat
deriving DecidableEq, Repr

/-- The Redis state of the password-reset service: the
`password_reset:<token> → data` entries and the
`password_reset_user:<user_id> → token` entries, each with its absolute
expiry time. -/
structure ResetState where
  tokens : List (String × ResetData × Nat)
  userTokens : List (Nat × String × Nat)
deriving DecidableEq, Repr

/-- Live lookup of a `password_reset:<token>` entry at time `now`. -/
def resetTokenAt (st : ResetState) (now : Nat) (tok : String) : Option ResetData :=
  match st.tokens.find? (fun e => e.1 == tok) with
  | none => none
  | some (_, d, e) => if now < e then some d else none

/-- Live lookup of a `password_reset_user:<user_id>` entry at time `now`. -/
def userResetTokenAt (st : ResetState) (now : Nat) (uid : Nat) : Option String :=
  match st.userTokens.find? (fun e => e.1 == uid) with
  | none => none
  | some (_, t, e) => if now < e then some t else none

/-- `RESET_TOKEN_EXPIRE_MINUTES * 60` (`app/services/password_reset.py`
lines 10-11, 48). -/
def resetTokenExpireSeconds : Nat := 30 * 60

/-- `create_password_reset_token` (`app/services/password_reset.py` lines
34-69): read the user's current token; when one exists (Python truthiness:
non-`None` and non-empty) delete its `password_reset:<old>` entry; then
`SET` the new `token → data` pair and the `user → token` pair, both with
TTL 30 minutes. The random `secrets.token_urlsafe` draw is the explicit
`newTok` argument. Returns the token and the updated cache state. -/
def createPasswordResetToken (st : ResetState) (now : Nat) (uid : Nat)
    (email : String) (newTok : String) : String × ResetState :=
  let st1 :=
    match userResetTokenAt st now uid with
    | some old =>
      if old ≠ "" then { st with tokens := st.tokens.filter (fun e => e.1 ≠ old) }
      else st
    | none => st
  let data : ResetData := { userId := uid, email := email, createdAt := now }
  let st2 := { st1 with
    tokens := (newTok, data, now + resetTokenExpireSeconds) ::
      st1.tokens.filter (fun e => e.1 ≠ newTok) }
  let st3 := { st2 with
    userTokens := (uid, newTok, now + resetTokenExpireSeconds) ::
      st2.userTokens.filter (fun e => e.1 ≠ uid) }
  (newTok, st3)

/-- `invalidate_password_reset_token` (`app/services/password_reset.py`
lines 91-108): delete both entries. -/
def invalidatePasswordResetToken (st : ResetState) (tok : String) (uid : Nat) :
    ResetState :=
  { tokens := st.tokens.filter (fun e => e.1 ≠ tok),
    userTokens := st.userTokens.filter (fun e => e.1 ≠ uid) }

/-- The 400 refusals of `confirm_password_reset`
(`app/api/v1/auth.py` lines 402-450). `invalidOrExpiredToken` is the
`"Invalid or expired reset token"` refusal raised when the token entry is
absent — the `InvalidToken` case of the specification. -/
inductive ResetError where
  | invalidOrExpiredToken
  | userNotFoundOrInactive
deriving DecidableEq, Repr

/-- `confirm_password_reset` (`app/api/v1/auth.py` lines 397-450): look up
the token entry (absent → `InvalidToken`); load the referenced user
(absent or inactive → refusal); otherwise replace the user's password
hash, delete both reset entries and delete the user's refresh binding.
The bcrypt draw for the new hash is the `newHash` argument. Returns the
updated user table, reset state and refresh store. -/
def confirmPasswordReset (db : List User) (st : ResetState) (store : RefreshStore)
    (now : Nat) (tok : String) (newHash : String) :
    Except ResetError (List User × ResetState × RefreshStore) :=
  match resetTokenAt st now tok with
  | none => Except.error ResetError.invalidOrExpiredToken
  | some data =>
    match findUser db data.userId with
    | none => Except.error ResetError.userNotFoundOrInactive
    | some u =>
      if ¬ u.isActive then Except.error ResetError.userNotFoundOrInactive
      else
        let db' := db.map (fun v =>
          if v.id = data.userId then { v with passwordHash := some newHash } else v)
        Except.ok (db', invalidatePasswordResetToken st tok data.userId,
          invalidateRefreshToken store data.userId)

/-! ## Password verification (`app/services/security.py`) -/

/-- `verify_password` (`app/services/security.py` lines 30-53). The call
into `bcrypt.checkpw` (which raises on a malformed stored hash) is the
oracle argument `checkpw`: `Except.ok b` is a normal return,
`Except.error m` a raised exception. The `try/except` of the source maps
every raised exception to `false`; the Lean function is total, which is
the source's "never raises" guarantee. -/
def verifyPassword (checkpw : String → String → Except String Bool)
    (plain hashed : String) : Bool :=
  match checkpw plain hashed with
  | Except.ok b => b
  | Except.error _ => false

/-! ## Audit log and role-mutation endpoints (`app/services/audit.py`,
`app/api/v1/roles.py`) -/

/-- One `audit_logs` row as inserted by `AuditService`
(`app/services/audit.py`): action name, entity type/id, acting user,
optional target user and role. -/
structure AuditEntry where
  action : String
  entityType : String
  entityId : String
  actorUserId : Nat
  targetUserId : Option Nat
  roleId : Option Nat
deriving DecidableEq, Repr

/-- The relational state the RBAC mutation endpoints touch: the `roles`
and `users` tables and the append-only `audit_logs` table. -/
structure DbState where
  roles : List Role
  users : List User
  auditLogs : List AuditEntry
deriving DecidableEq, Repr

/-- The 4xx refusals of the role and user-role endpoints. -/
inductive ApiError where
  | badRequest
  | notFound
deriving DecidableEq, Repr

/-- The `create_new_role` endpoint (`app/api/v1/roles.py` lines 61-95):
refuse when the name exists, otherwise insert the role and commit. The
transaction writes the `roles` row only — the endpoint makes no
`AuditService` call, so `audit_logs` is untouched. `newId` is the id the
store generates for the new row; `actorId` the authenticated principal
(used only by the permission gate upstream of the body). -/
def createNewRole (st : DbState) (newId _actorId : Nat) (name : String)
    (description : Option String) : Except ApiError (DbState × Role) :=
  match st.roles.find? (fun r => r.name == name) with
  | some _ => Except.error ApiError.badRequest
  | none =>
    let role : Role :=
      { id := newId, name := name, description := description, isSystem := false,
        permissions := [] }
    Except.ok ({ st with roles := st.roles ++ [role] }, role)

/-- `AuditService.log_role_assigned` (`app/services/audit.py` lines
18-63): the row inserted for a role assignment. -/
def auditRoleAssignedEntry (actorId targetUserId roleId : Nat) : AuditEntry :=
  { action := "role_assigned", entityType := "user_role",
    entityId := toString targetUserId, actorUserId := actorId,
    targetUserId := some targetUserId, roleId := some roleId }

/-- The `assign_user_role` endpoint (`app/api/v1/users.py` lines 159-214):
refuse when the user or role is absent or the user already holds the
role; otherwise append the role to the user, insert one
`role_assigned` audit row, and commit both in the same transaction. -/
def assignUserRole (st : DbState) (actorId userId roleId : Nat) :
    Except ApiError DbState :=
  match findUser st.users userId with
  | none => Except.error ApiError.notFound
  | some u =>
    match st.roles.find? (fun r => r.id == roleId) with
    | none => Except.error ApiError.notFound
    | some role =>
      if role ∈ u.roles then Except.error ApiError.badRequest
      else
        let users' := st.users.map (fun v =>
          if v.id = userId then { v with roles := v.roles ++ [role] } else v)
        Except.ok
          { st with
            users := users',
            auditLogs :=
              st.auditLogs ++ [auditRoleAssignedEntry actorId userId roleId] }

/-! ## Search engine (`app/models/document.py`, `app/services/search.py`) -/

/-- A document row (`app/models/document.py`): title, nullable content,
JSONB metadata as key/value pairs, owner and creation time. -/
structure Document where
  id : Nat
  title : String
  content : Option String
  ownerId : Nat
  createdAt : Nat
  meta : List (String × String)
deriving DecidableEq, Repr

/-- `SearchService._build_filter_conditions` (`app/services/search.py`
lines 51-71) evaluated on one row: owner equality, creation-date range,
and JSONB containment (`@>`, subset of key/value pairs) for metadata. -/
def rowPassesFilters (filters : Option SearchFilters) (d : Document) : Bool :=
  match filters with
  | none => true
  | some f =>
    (match f.ownerId with | none => true | some o => d.ownerId == o) &&
    (match f.dateFrom with | none => true | some t => decide (t ≤ d.createdAt)) &&
    (match f.dateTo with | none => true | some t => decide (d.createdAt ≤ t)) &&
    (match f.metaFilters with
     | none => true
     | some m => m.all (fun kv => d.meta.contains kv))

/-- Insert into a rank-descending list, keeping larger second components
first: the `ORDER BY rank DESC` of the store. -/
def insertRankDesc (x : Document × ℚ) : List (Document × ℚ) → List (Document × ℚ)
  | [] => [x]
  | y :: ys => if y.2 ≤ x.2 then x :: y :: ys else y :: insertRankDesc x ys

/-- Sort by rank descending (`ORDER BY ... DESC`); ties are broken by
input order, which the store leaves unspecified. -/
def sortRankDesc : List (Document × ℚ) → List (Document × ℚ)
  | [] => []
  | x :: xs => insertRankDesc x (sortRankDesc xs)

/-- `float(value) if value else 0.0` applied to a rank
(`app/services/search.py` lines 220 and 319): the Python falsy check maps
`0` to `0.0` and keeps every other value. -/
def pyFloatOrZero (v : ℚ) : ℚ := if v = 0 then 0 else v

/-- `content or null coalesced to the empty string`:
`func.coalesce(Document.content, "")` of the source. -/
def contentOrEmpty (d : Document) : String := d.content.getD ""

/-- `SearchService._search_fuzzy` (`app/services/search.py` lines
226-323). `pg_trgm`'s `similarity` is external to the repository and is
the oracle argument `sim`. A row matches when the title or the coalesced
content has similarity to the query above the 0.3 threshold; the count
query totals the matching rows; the main query orders the matches by the
combined similarity `2·title + content` descending and paginates; each
returned row carries that combined value as its rank. Highlights are
dropped here (the claim under verification does not mention them). -/
def searchFuzzy (sim : String → String → ℚ) (docs : List Document) (q : String)
    (filters : Option SearchFilters) (page pageSize : Nat) :
    List (Document × ℚ) × Nat :=
  let cond := fun d =>
    (decide ((3 : ℚ)/10 < sim d.title q) ||
     decide ((3 : ℚ)/10 < sim (contentOrEmpty d) q)) &&
    rowPassesFilters filters d
  let matched := docs.filter cond
  let total := matched.length
  let ranked := matched.map (fun d =>
    (d, sim d.title q * 2 + sim (contentOrEmpty d) q))
  let pageRows := ((sortRankDesc ranked).drop ((page - 1) * pageSize)).take pageSize
  (pageRows.map (fun r => (r.1, pyFloatOrZero r.2)), total)

/-! ## Boolean search mode and `to_tsquery` syntax
(`app/services/search.py` lines 107-124) -/

/-- A token of the `to_tsquery` boolean syntax: a lexeme or one of the
operators `&`, `|`, `!`, `(`, `)`. -/
inductive TsTok where
  | word : String → TsTok
  | amp
  | pipe
  | bang
  | lpar
  | rpar
deriving DecidableEq, Repr

/-- Whether a character is an operator or whitespace of the boolean
syntax (every other character contributes to a lexeme). -/
def tsSpecial (c : Char) : Bool :=
  c = ' ' || c = '&' || c = '|' || c = '!' || c = '(' || c = ')'

/-- Modelled from the spec: the lexer of PostgreSQL `to_tsquery`
("**boolean** — `to_query(\"english\", q)`; user supplies `&`, `|`, `!`,
parentheses"), which is external to the repository. Splits the input
into lexemes and operator tokens, accumulating the current lexeme. -/
def tsTokenizeAux : List Char → Option String → List TsTok
  | [], none => []
  | [], some w => [TsTok.word w]
  | c :: cs, acc =>
    if tsSpecial c then
      let pre := match acc with | some w => [TsTok.word w] | none => []
      let tok : List TsTok :=
        if c = '&' then [TsTok.amp]
        else if c = '|' then [TsTok.pipe]
        else if c = '!' then [TsTok.bang]
        else if c = '(' then [TsTok.lpar]
        else if c = ')' then [TsTok.rpar]
        else []
      pre ++ tok ++ tsTokenizeAux cs none
    else
      tsTokenizeAux cs (some (match acc with
        | some w => w.push c
        | none => String.singleton c))

/-- Tokenize a boolean query string. -/
def tsTokenize (q : String) : List TsTok := tsTokenizeAux q.toList none

mutual

/-- Modelled from the spec: the `to_tsquery` grammar factor, external to
the repository — negations applied to a lexeme or a parenthesized
expression. Returns the unconsumed tokens on success, `none` on a syntax
error. `fuel` bounds the recursion depth. -/
def tsParseFactor : Nat → List TsTok → Option (List TsTok)
  | 0, _ => none
  | fuel + 1, TsTok.bang :: rest => tsParseFactor fuel rest
  | _ + 1, TsTok.word _ :: rest => some rest
  | fuel + 1, TsTok.lpar :: rest =>
    match tsParseExpr fuel rest with
    | some (TsTok.rpar :: rest2) => some rest2
    | _ => none
  | _ + 1, _ => none

/-- Modelled from the spec: a `to_tsquery` conjunction — factors joined
by `&`. -/
def tsParseTerm : Nat → List TsTok → Option (List TsTok)
  | 0, _ => none
  | fuel + 1, ts =>
    match tsParseFactor fuel ts with
    | none => none
    | some rest =>
      match rest with
      | TsTok.amp :: rest2 => tsParseTerm fuel rest2
      | _ => some rest

/-- Modelled from the spec: a `to_tsquery` disjunction — terms joined by
`|`. -/
def tsParseExpr : Nat → List TsTok → Option (List TsTok)
  | 0, _ => none
  | fuel + 1, ts =>
    match tsParseTerm fuel ts with
    | none => none
    | some rest =>
      match rest with
      | TsTok.pipe :: rest2 => tsParseExpr fuel rest2
      | _ => some rest
end

/-- Modelled from the spec: whether a string is well-formed `to_tsquery`
boolean syntax — the whole token stream parses as one expression.
PostgreSQL raises `syntax error in tsquery` exactly otherwise. -/
def tsqueryValid (q : String) : Bool :=
  let toks := tsTokenize q
  match tsParseExpr (toks.length + 1) toks with
  | some [] => true
  | _ => false

/-- `SearchService._execute_fts_search` (`app/services/search.py` lines
126-224) for a successfully parsed query: the store's `@@` match and
`ts_rank` are external and are the oracle arguments; rows matching the
query and the filters are counted, ordered by rank descending and
paginated, each carrying its `ts_rank` value. Highlights are dropped. -/
def executeFtsSearch (tsMatch : Document → String → Bool)
    (tsRank : Document → String → ℚ) (docs : List Document) (q : String)
    (filters : Option SearchFilters) (page pageSize : Nat) :
    List (Document × ℚ) × Nat :=
  let matched := docs.filter (fun d => tsMatch d q && rowPassesFilters filters d)
  let total := matched.length
  let ranked := matched.map (fun d => (d, tsRank d q))
  let pageRows := ((sortRankDesc ranked).drop ((page - 1) * pageSize)).take pageSize
  (pageRows.map (fun r => (r.1, pyFloatOrZero r.2)), total)

/-- How a failure of `_search_boolean` surfaces. The only constructor is
the uncaught database exception: the endpoint and service define no
handler and no `InvalidQuery` error anywhere. -/
inductive SearchFailure where
  | dbSyntaxError : String → SearchFailure
deriving DecidableEq, Repr

/-- `SearchService._search_boolean` (`app/services/search.py` lines
107-124): the query string is handed to `to_tsquery` unsanitized and
unguarded — despite the source comment announcing "basic sanitization",
none is performed — so a malformed query makes the store raise, and the
exception propagates out of the service untouched. -/
def searchBooleanService (tsMatch : Document → String → Bool)
    (tsRank : Document → String → ℚ) (docs : List Document) (q : String)
    (filters : Option SearchFilters) (page pageSize : Nat) :
    Except SearchFailure (List (Document × ℚ) × Nat) :=
  if tsqueryValid q then
    Except.ok (executeFtsSearch tsMatch tsRank docs q filters page pageSize)
  else
    Except.error (SearchFailure.dbSyntaxError q)

/-- The HTTP status the boolean search surfaces: 200 on success; an
uncaught database exception reaches the framework's default handler,
which answers 500 (no exception handler is installed in `app/main.py`
and none of the search code catches the store's error). -/
def searchBooleanStatus (tsMatch : Document → String → Bool)
    (tsRank : Document → String → ℚ) (docs : List Document) (q : String)
    (filters : Option SearchFilters) (page pageSize : Nat) : Nat :=
  match searchBooleanService tsMatch tsRank docs q filters page pageSize with
  | Except.ok _ => 200
  | Except.error (SearchFailure.dbSyntaxError _) => 500

/-! ## Helper lemmas -/

/-- Deduplication only drops elements: members of the deduplicated list
come from the input. -/
theorem mem_of_mem_dedupByTriple {p : Permission} :
    ∀ {l : List Permission} {seen : List (String × String × String)},
      p ∈ dedupByTriple l seen → p ∈ l := by
  intro l
  induction l with
  | nil => intro seen h; simp [dedupByTriple] at h
  | cons q qs ih =>
    intro seen h
    rw [dedupByTriple] at h
    by_cases hseen : (q.resource, q.action, q.scope) ∈ seen
    · rw [if_pos hseen] at h
      exact List.mem_cons_of_mem q (ih h)
    · rw [if_neg hseen] at h
      rcases List.mem_cons.mp h with h1 | h2
      · exact h1 ▸ List.mem_cons_self q qs
      · exact List.mem_cons_of_mem q (ih h2)

/-- Deduplication keeps a representative of every triple not already seen:
for each input element whose triple is unseen, some output element carries
the same `(resource, action, scope)`. -/
theorem dedupByTriple_covers {p : Permission} :
    ∀ {l : List Permission} {seen : List (String × String × String)},
      p ∈ l → (p.resource, p.action, p.scope) ∉ seen →
      ∃ p2 ∈ dedupByTriple l seen,
        p2.resource = p.resource ∧ p2.action = p.action ∧ p2.scope = p.scope := by
  intro l
  induction l with
  | nil => intro seen h _; simp at h
  | cons q qs ih =>
    intro seen hmem hns
    rw [dedupByTriple]
    by_cases hseen : (q.resource, q.action, q.scope) ∈ seen
    · rw [if_pos hseen]
      rcases List.mem_cons.mp hmem with rfl | h2
      · exact absurd hseen hns
      · exact ih h2 hns
    · rw [if_neg hseen]
      by_cases htr : (q.resource, q.action, q.scope) = (p.resource, p.action, p.scope)
      · refine ⟨q, List.mem_cons_self _ _, ?_⟩
        have h := htr
        rw [Prod.mk.injEq, Prod.mk.injEq] at h
        exact ⟨h.1, h.2.1, h.2.2⟩
      · rcases List.mem_cons.mp hmem with rfl | h2
        · exact absurd rfl htr
        · have hns2 : (p.resource, p.action, p.scope) ∉
              (q.resource, q.action, q.scope) :: seen := by
            intro hc
            rcases List.mem_cons.mp hc with hc1 | hc2
            · exact htr hc1.symm
            · exact hns hc2
          obtain ⟨p2, hp2, hprops⟩ := ih h2 hns2
          exact ⟨p2, List.mem_cons_of_mem q hp2, hprops⟩

/-- `permMatches` only looks at the `(resource, action, scope)` triple. -/
theorem permMatches_congr {r a : String} {lvl : Nat} {p q : Permission}
    (h1 : p.resource = q.resource) (h2 : p.action = q.action)
    (h3 : p.scope = q.scope) :
    permMatches r a lvl p = permMatches r a lvl q := by
  simp [permMatches, h1, h2, h3]

/-- Unfolding `permMatches` into its propositional form. -/
theorem permMatches_eq_true_iff {r a : String} {lvl : Nat} {p : Permission} :
    permMatches r a lvl p = true ↔
      (p.resource = r ∨ p.resource = "*") ∧ (p.action = a ∨ p.action = "*") ∧
        lvl ≤ scopeRank p.scope := by
  simp [permMatches, Bool.and_eq_true, Bool.or_eq_true, beq_iff_eq,
    decide_eq_true_iff, and_assoc]

/-- Claim C2: for every user `u`, resource `r`, action `a` and required
scope `s` in `{own, team, all}`, `has_permission(u, r, a, s)` returns true
iff some permission `(r2, a2, s2)` in the union of the permissions of all
roles held by `u` satisfies `(r2 = r ∨ r2 = "*") ∧ (a2 = a ∨ a2 = "*") ∧
rank(s2) ≥ rank(s)` under the order `own < team < all`. Evaluated on the
authoritative store path (empty permissions cache); `hu` states that the
store's row for `u.id` is `u` itself, and `hps` the data-model invariant
that stored scopes lie in `{own, team, all}`, on which `rank` is the
order `own < team < all`. -/
theorem rbac_has_permission_iff (db : List User) (u : User) (r a s : String)
    (hu : findUser db u.id = some u)
    (_hs : s = "own" ∨ s = "team" ∨ s = "all")
    (_hps : ∀ role ∈ u.roles, ∀ p ∈ role.permissions,
      p.scope = "own" ∨ p.scope = "team" ∨ p.scope = "all") :
    hasPermission none db u r a s = true ↔
      ∃ role ∈ u.roles, ∃ p ∈ role.permissions,
        (p.resource = r ∨ p.resource = "*") ∧ (p.action = a ∨ p.action = "*") ∧
          scopeRank s ≤ scopeRank p.scope := by
  rw [hasPermission, getUserPermissions, hu, List.any_eq_true]
  constructor
  · rintro ⟨p, hp, hm⟩
    have hin : p ∈ u.roles.flatMap (fun role => role.permissions) :=
      mem_of_mem_dedupByTriple hp
    obtain ⟨role, hrole, hpperm⟩ := List.mem_flatMap.mp hin
    exact ⟨role, hrole, p, hpperm, permMatches_eq_true_iff.mp hm⟩
  · rintro ⟨role, hrole, p, hp, hprops⟩
    have hin : p ∈ u.roles.flatMap (fun role => role.permissions) :=
      List.mem_flatMap.mpr ⟨role, hrole, hp⟩
    obtain ⟨p2, hp2, hq1, hq2, hq3⟩ :=
      dedupByTriple_covers hin (List.not_mem_nil _)
    refine ⟨p2, hp2, ?_⟩
    rw [permMatches_congr hq1 hq2 hq3]
    exact permMatches_eq_true_iff.mpr hprops

/-- Example fixture: the `documents:read:own` permission row. -/
def exPermDocReadOwn : Permission :=
  { id := 10, resource := "documents", action := "read", scope := "own" }

/-- Example fixture: a `User` role granting own-scoped document reads. -/
def exRoleUser : Role :=
  { id := 3, name := "User", description := none, isSystem := false,
    permissions := [exPermDocReadOwn] }

/-- Example fixture: an active user holding only `exRoleUser`. -/
def exAlice : User :=
  { id := 1, email := "a@x.y", isActive := true, passwordHash := some "h",
    roles := [exRoleUser] }

/-- Witness for C2: on a one-user store where Alice's single role grants
`documents:read:own`, the hypotheses hold and the equivalence yields
`has_permission(alice, documents, read, own) = true`. -/
theorem rbac_has_permission_iff_witness :
    findUser [exAlice] exAlice.id = some exAlice ∧
    hasPermission none [exAlice] exAlice "documents" "read" "own" = true :=
  ⟨by decide,
    (rbac_has_permission_iff [exAlice] exAlice "documents" "read" "own"
        (by decide) (Or.inl rfl) (by decide)).mpr
      ⟨exRoleUser, by decide, exPermDocReadOwn, by decide,
        Or.inl rfl, Or.inl rfl, by decide⟩⟩

/-- Claim C10: with the empty requirement list, `has_all_permissions`
returns true (its early-return-false loop never runs) and
`has_any_permission` returns false (its early-return-true loop never
runs), for every user, store and cache state. -/
theorem rbac_empty_requirement_lists (cached : Option (List Permission))
    (db : List User) (u : User) :
    hasAllPermissions cached db u [] = true ∧
    hasAnyPermission cached db u [] = false :=
  ⟨rfl, rfl⟩

/-- Claim C1: when the principal lacks `documents:read:all`, the filters
handed to `SearchService.search` carry `owner_id = principal.id` — any
caller-supplied `owner_id` is overridden — while `date_from`, `date_to`
and `meta_filters` pass through unchanged (absent caller filters become a
filter object holding only the owner). -/
theorem search_owner_override (cached : Option (List Permission)) (db : List User)
    (u : User) (req : Option SearchFilters)
    (h : hasPermission cached db u "documents" "read" "all" = false) :
    searchDocumentsEffectiveFilters cached db u req =
      some { ownerId := some u.id,
             dateFrom := req.bind SearchFilters.dateFrom,
             dateTo := req.bind SearchFilters.dateTo,
             metaFilters := req.bind SearchFilters.metaFilters } := by
  rw [searchDocumentsEffectiveFilters.eq_def, h]
  cases req <;> simp

/-- Witness for C1: Alice holds only `documents:read:own`, so she lacks
`documents:read:all`; a caller-supplied filter naming owner 999 is
rewritten to owner 1 (Alice) with the date range and metadata filters
kept. -/
theorem search_owner_override_witness :
    hasPermission none [exAlice] exAlice "documents" "read" "all" = false ∧
    searchDocumentsEffectiveFilters none [exAlice] exAlice
        (some { ownerId := some 999, dateFrom := some 5, dateTo := some 9,
                metaFilters := some [("k", "v")] }) =
      some { ownerId := some 1, dateFrom := some 5, dateTo := some 9,
             metaFilters := some [("k", "v")] } :=
  ⟨by decide,
    search_owner_override none [exAlice] exAlice
      (some { ownerId := some 999, dateFrom := some 5, dateTo := some 9,
              metaFilters := some [("k", "v")] }) (by decide)⟩

/-- After `k` attempts (`1 ≤ k ≤ maxRequests`) all within the window
opened by the first attempt, the cache holds the counter at `k` with the
original expiry and no block key. -/
theorem rlStateAfter_invariant (n w b : Nat) (s : Nat → Nat)
    (hwin : ∀ i, i ≤ n → s i < s 0 + w) :
    ∀ k, 0 < k → k ≤ n →
      rlStateAfter n w b s k = { counter := some (k, s 0 + w), block := none } := by
  intro k
  induction k with
  | zero => intro h; exact absurd h (by omega)
  | succ k ih =>
    intro _ hk
    rcases Nat.eq_zero_or_pos k with rfl | hk0
    · show (checkRateLimit n w b (s 0) emptyRL).2 = _
      simp [checkRateLimit, emptyRL, ttlAt, counterAt]
    · have hst := ih hk0 (by omega)
      show (checkRateLimit n w b (s k) (rlStateAfter n w b s k)).2 = _
      rw [hst]
      have hlive : s k < s 0 + w := hwin k (by omega)
      have hcount : ¬ n ≤ k := by omega
      simp [checkRateLimit, ttlAt, counterAt, hlive, hcount]

/-- Claim C5: with profile `(n, w, b)` and `n ≥ 1`, starting from the
empty cache state, the first `n` attempts — all within the window opened
by the first — are allowed; the `(n+1)`-th attempt (still within the
window) is rejected with `b` seconds remaining and leaves the state
blocked until `s n + b` with the counter deleted; every attempt while the
block is live is rejected with the remaining block TTL (and, the state
being unchanged on a blocked attempt, this covers every such attempt of
any longer run); and `reset_rate_limit` deletes both the counter and the
block key from any state. -/
theorem rate_limit_window (n w b : Nat) (s : Nat → Nat) (hn : 0 < n)
    (hwin : ∀ i, i ≤ n → s i < s 0 + w) :
    (∀ i, i < n →
      ((checkRateLimit n w b (s i) (rlStateAfter n w b s i)).1).1 = true) ∧
    (checkRateLimit n w b (s n) (rlStateAfter n w b s n)).1 = (false, (b : Int)) ∧
    rlStateAfter n w b s (n + 1) = { counter := none, block := some (s n + b) } ∧
    (∀ t, t < s n + b →
      (checkRateLimit n w b t (rlStateAfter n w b s (n + 1))).1 =
        (false, ((s n + b - t : Nat) : Int))) ∧
    (∀ st : RLState, resetRateLimit st = emptyRL) := by
  have hblocked :
      (checkRateLimit n w b (s n) (rlStateAfter n w b s n)) =
        ((false, (b : Int)), { counter := none, block := some (s n + b) }) := by
    rw [rlStateAfter_invariant n w b s hwin n hn le_rfl]
    have hlive : s n < s 0 + w := hwin n le_rfl
    simp [checkRateLimit, ttlAt, counterAt, hlive]
  refine ⟨?_, ?_, ?_, ?_, fun _ => rfl⟩
  · intro i hi
    rcases Nat.eq_zero_or_pos i with rfl | hi0
    · simp [rlStateAfter, checkRateLimit, emptyRL, ttlAt, counterAt]
    · rw [rlStateAfter_invariant n w b s hwin i hi0 (by omega)]
      have hlive : s i < s 0 + w := hwin i (by omega)
      have hcount : ¬ n ≤ i := by omega
      simp [checkRateLimit, ttlAt, counterAt, hlive, hcount]
  · rw [hblocked]
  · show (checkRateLimit n w b (s n) (rlStateAfter n w b s n)).2 = _
    rw [hblocked]
  · intro t ht
    have hst : rlStateAfter n w b s (n + 1) =
        { counter := none, block := some (s n + b) } := by
      show (checkRateLimit n w b (s n) (rlStateAfter n w b s n)).2 = _
      rw [hblocked]
    rw [hst]
    have hpos : (0 : Int) < ((s n + b - t : Nat) : Int) := by
      have h0 : 0 < s n + b - t := by omega
      exact_mod_cast h0
    simp [checkRateLimit, ttlAt, ht, hpos]

/-- Witness for C5: with the login profile `(5, 60s, 300s)` and attempts
at times `100, 101, ..., 105`, the third attempt is allowed, the sixth is
rejected with 300 seconds remaining, an attempt at time 200 is rejected
with 205 seconds remaining, and `reset_rate_limit` clears a populated
state. -/
theorem rate_limit_window_witness :
    (0 : Nat) < 5 ∧
    ((checkRateLimit 5 60 300 102
        (rlStateAfter 5 60 300 (fun i => 100 + i) 2)).1).1 = true ∧
    (checkRateLimit 5 60 300 105
        (rlStateAfter 5 60 300 (fun i => 100 + i) 5)).1 = (false, (300 : Int)) ∧
    (checkRateLimit 5 60 300 200
        (rlStateAfter 5 60 300 (fun i => 100 + i) 6)).1 = (false, (205 : Int)) ∧
    resetRateLimit { counter := some (3, 160), block := none } = emptyRL := by
  have h := rate_limit_window 5 60 300 (fun i => 100 + i) (by decide)
    (by intro i hi; simp; omega)
  exact ⟨by decide, h.1 2 (by decide), h.2.1, h.2.2.2.1 200 (by decide),
    h.2.2.2.2 _⟩

/-- Claim C4, amended: after a successful `refresh` call at time `now`
presenting `t` that returns `(a2, t2)` and the updated binding store, the
new token `t2` validates; and the presented token `t` no longer validates
provided `t2 ≠ t` — which can fail, since a refresh in the very second
`t` was issued reproduces the identical payload and hence the identical
signed token (see the counterexample). `hR` is the configured positive
refresh lifetime. -/
theorem refresh_rotation (cfg : JwtConfig) (db : List User) (store : RefreshStore)
    (now : Nat) (t a2 t2 : TokenPayload) (store2 : RefreshStore)
    (hR : 0 < cfg.refreshExpireDays)
    (hok : refreshEndpoint cfg db store now t = Except.ok (a2, t2, store2))
    (hne : t2 ≠ t) :
    validateRefreshToken store2 now t.sub t = false ∧
    validateRefreshToken store2 now t.sub t2 = true := by
  rw [refreshEndpoint.eq_def] at hok
  split_ifs at hok
  split at hok
  · exact absurd hok (by simp)
  · split_ifs at hok
    rw [Except.ok.injEq, Prod.mk.injEq, Prod.mk.injEq] at hok
    obtain ⟨-, ht2, hst⟩ := hok
    subst ht2
    subst hst
    have hfresh : now < now + cfg.refreshExpireDays * 86400 := by omega
    constructor
    · simp [validateRefreshToken, getStoredRefreshToken, storeRefreshToken,
        List.find?, hfresh]
      exact hne
    · simp [validateRefreshToken, getStoredRefreshToken, storeRefreshToken,
        List.find?, hfresh]

/-- Example fixture for C4: default token lifetimes (30 min access,
7 day refresh). -/
def exCfg : JwtConfig := { accessExpireMinutes := 30, refreshExpireDays := 7 }

/-- Example fixture for C4: the refresh token issued to Alice at second
1000 (as by login). -/
def exRefreshTok : TokenPayload := createRefreshToken exCfg 1000 1

/-- Example fixture for C4: the binding store right after that login. -/
def exStore : RefreshStore := storeRefreshToken exCfg 1000 [] 1 exRefreshTok

/-- Counterexample to C4 as stated: Alice logs in at second 1000 and
calls `refresh` within the same second. The refresh succeeds, but the
"new" refresh token has the same `{sub, iat, exp, type}` payload and thus
the same signed encoding as the presented one, so after the rotation
`validate_refresh_token(alice, t)` is still true — the claim demands
false for every successful refresh. -/
theorem refresh_rotation_counterexample :
    refreshEndpoint exCfg [exAlice] exStore 1000 exRefreshTok =
      Except.ok (createAccessToken exCfg 1000 1, exRefreshTok,
        storeRefreshToken exCfg 1000 exStore 1 exRefreshTok) ∧
    validateRefreshToken (storeRefreshToken exCfg 1000 exStore 1 exRefreshTok)
      1000 1 exRefreshTok = true := by
  constructor
  · rfl
  · decide

/-- Witness for the amended C4: refreshing at second 1001 a token issued
at second 1000 produces a distinct token; afterwards the old token fails
validation and the new one validates. -/
theorem refresh_rotation_witness :
    validateRefreshToken
        (storeRefreshToken exCfg 1001 exStore 1 (createRefreshToken exCfg 1001 1))
        1001 1 exRefreshTok = false ∧
    validateRefreshToken
        (storeRefreshToken exCfg 1001 exStore 1 (createRefreshToken exCfg 1001 1))
        1001 1 (createRefreshToken exCfg 1001 1) = true :=
  refresh_rotation exCfg [exAlice] exStore 1001 exRefreshTok
    (createAccessToken exCfg 1001 1) (createRefreshToken exCfg 1001 1)
    (storeRefreshToken exCfg 1001 exStore 1 (createRefreshToken exCfg 1001 1))
    (by decide) (by rfl) (by decide)

/-- Looking up a key in a list from which every entry with that key was
filtered out finds nothing. -/
theorem find?_filter_ne_eq_none {β : Type} (l : List (String × β)) (k : String) :
    (l.filter (fun e => e.1 ≠ k)).find? (fun e => e.1 == k) = none := by
  apply List.find?_eq_none.mpr
  intro e he
  have h := (List.mem_filter.mp he).2
  simp only [decide_eq_true_iff] at h
  simpa using h

/-- Claim C6: creating a new reset token for a user first deletes the
`password_reset:<old>` entry of the user's prior token and then stores
the new pair, so afterwards (1) the prior token's entry is gone, (2)
confirming with the prior token fails with the `InvalidToken` refusal,
and (3) confirming with the new token — within its TTL, for an existing
active user — succeeds. `hne` is the freshness of the random draw,
`hOldTok` the prior binding, `holdne` that the stored token is a
non-empty string (as produced by `secrets.token_urlsafe`). -/
theorem password_reset_supersession (db : List User) (st : ResetState)
    (store : RefreshStore) (now tconf uid : Nat)
    (email oldTok newTok newHash : String) (u : User)
    (hOldTok : userResetTokenAt st now uid = some oldTok)
    (holdne : oldTok ≠ "")
    (hne : newTok ≠ oldTok)
    (hu : findUser db uid = some u)
    (hactive : u.isActive = true)
    (_hlo : now ≤ tconf) (hhi : tconf < now + resetTokenExpireSeconds) :
    resetTokenAt (createPasswordResetToken st now uid email newTok).2 tconf
        oldTok = none ∧
    confirmPasswordReset db (createPasswordResetToken st now uid email newTok).2
        store tconf oldTok newHash = Except.error ResetError.invalidOrExpiredToken ∧
    (confirmPasswordReset db (createPasswordResetToken st now uid email newTok).2
        store tconf newTok newHash).isOk = true := by
  have hstate : (createPasswordResetToken st now uid email newTok).2 =
      { tokens := (newTok, { userId := uid, email := email, createdAt := now },
            now + resetTokenExpireSeconds) ::
          (st.tokens.filter (fun e => e.1 ≠ oldTok)).filter (fun e => e.1 ≠ newTok),
        userTokens := (uid, newTok, now + resetTokenExpireSeconds) ::
          st.userTokens.filter (fun e => e.1 ≠ uid) } := by
    simp [createPasswordResetToken, hOldTok, holdne]
  have hgone : resetTokenAt (createPasswordResetToken st now uid email newTok).2
      tconf oldTok = none := by
    rw [hstate, resetTokenAt, List.find?]
    have hhead : ((newTok == oldTok) : Bool) = false := by simpa using hne
    rw [hhead]
    have hnone : ((st.tokens.filter (fun e => e.1 ≠ oldTok)).filter
        (fun e => e.1 ≠ newTok)).find? (fun e => e.1 == oldTok) = none := by
      apply List.find?_eq_none.mpr
      intro e he
      have h1 := (List.mem_filter.mp ((List.mem_filter.mp he).1)).2
      simp only [decide_eq_true_iff] at h1
      simpa using h1
    rw [hnone]
  have hnew : resetTokenAt (createPasswordResetToken st now uid email newTok).2
      tconf newTok = some { userId := uid, email := email, createdAt := now } := by
    rw [hstate, resetTokenAt, List.find?]
    have hhead : ((newTok == newTok) : Bool) = true := by simp
    rw [hhead]
    simp only
    rw [if_pos (by omega : tconf < now + resetTokenExpireSeconds)]
  refine ⟨hgone, ?_, ?_⟩
  · rw [confirmPasswordReset, hgone]
  · rw [confirmPasswordReset, hnew]
    simp [hu, hactive, Except.isOk, Except.toBool]

/-- Example fixture for C6: a reset state holding Alice's prior token
`"OLD"`, issued earlier and expiring at second 2000. -/
def exResetState : ResetState :=
  { tokens := [("OLD", { userId := 1, email := "a@x.y", createdAt := 0 }, 2000)],
    userTokens := [(1, "OLD", 2000)] }

/-- Witness for C6: superseding Alice's token `"OLD"` by `"NEW"` at
second 100; confirming at second 100 rejects `"OLD"` with the
`InvalidToken` refusal and accepts `"NEW"`. -/
theorem password_reset_supersession_witness :
    userResetTokenAt exResetState 100 1 = some "OLD" ∧
    confirmPasswordReset [exAlice]
        (createPasswordResetToken exResetState 100 1 "a@x.y" "NEW").2
        [] 100 "OLD" "H2" = Except.error ResetError.invalidOrExpiredToken ∧
    (confirmPasswordReset [exAlice]
        (createPasswordResetToken exResetState 100 1 "a@x.y" "NEW").2
        [] 100 "NEW" "H2").isOk = true :=
  ⟨by decide,
    (password_reset_supersession [exAlice] exResetState [] 100 100 1
      "a@x.y" "OLD" "NEW" "H2" exAlice (by decide) (by decide) (by decide)
      (by decide) (by decide) (by decide) (by decide)).2⟩

/-- Membership is preserved by ordered insertion. -/
theorem mem_insertRankDesc {x y : Document × ℚ} {l : List (Document × ℚ)} :
    y ∈ insertRankDesc x l ↔ y = x ∨ y ∈ l := by
  induction l with
  | nil => simp [insertRankDesc]
  | cons z zs ih =>
    rw [insertRankDesc]
    by_cases h : z.2 ≤ x.2
    · rw [if_pos h]
      simp [List.mem_cons]
    · rw [if_neg h]
      rw [List.mem_cons, ih, List.mem_cons]
      tauto

/-- Sorting by rank is a reordering: membership is unchanged. -/
theorem mem_sortRankDesc {y : Document × ℚ} :
    ∀ {l : List (Document × ℚ)}, y ∈ sortRankDesc l ↔ y ∈ l := by
  intro l
  induction l with
  | nil => simp [sortRankDesc]
  | cons z zs ih =>
    rw [sortRankDesc, mem_insertRankDesc, List.mem_cons, ih]

/-- Ordered insertion grows the length by one. -/
theorem length_insertRankDesc (x : Document × ℚ) (l : List (Document × ℚ)) :
    (insertRankDesc x l).length = l.length + 1 := by
  induction l with
  | nil => rfl
  | cons z zs ih =>
    rw [insertRankDesc]
    by_cases h : z.2 ≤ x.2
    · rw [if_pos h]; rfl
    · rw [if_neg h]
      simp [ih]

/-- Sorting preserves the length. -/
theorem length_sortRankDesc (l : List (Document × ℚ)) :
    (sortRankDesc l).length = l.length := by
  induction l with
  | nil => rfl
  | cons z zs ih =>
    rw [sortRankDesc, length_insertRankDesc, ih]
    rfl

/-- The rank carried by a fuzzy result is unchanged by the Python falsy
conversion. -/
theorem pyFloatOrZero_eq (v : ℚ) : pyFloatOrZero v = v := by
  rw [pyFloatOrZero]
  by_cases h : v = 0
  · rw [if_pos h, h]
  · rw [if_neg h]

/-- Claim C7: in fuzzy mode with no filters, on a single full page, a
document appears in the result set iff `similarity(title, q) > 0.3` or
`similarity(content, q) > 0.3` (null content read as the empty string),
and every returned row carries rank
`similarity(title, q) · 2 + similarity(content, q)`. The `pg_trgm`
similarity is the oracle `sim`; `hps` makes page 1 hold every row so that
pagination drops nothing. -/
theorem fuzzy_membership_and_rank (sim : String → String → ℚ)
    (docs : List Document) (q : String) (pageSize : Nat)
    (hps : docs.length ≤ pageSize) :
    (∀ d : Document,
      (∃ r, (d, r) ∈ (searchFuzzy sim docs q none 1 pageSize).1) ↔
        d ∈ docs ∧
          ((3 : ℚ)/10 < sim d.title q ∨ (3 : ℚ)/10 < sim (contentOrEmpty d) q)) ∧
    (∀ d r, (d, r) ∈ (searchFuzzy sim docs q none 1 pageSize).1 →
      r = sim d.title q * 2 + sim (contentOrEmpty d) q) := by
  have hlen : (sortRankDesc ((docs.filter (fun d =>
      (decide ((3 : ℚ)/10 < sim d.title q) ||
        decide ((3 : ℚ)/10 < sim (contentOrEmpty d) q)) &&
      rowPassesFilters none d)).map (fun d =>
        (d, sim d.title q * 2 + sim (contentOrEmpty d) q)))).length ≤ pageSize := by
    rw [length_sortRankDesc, List.length_map]
    exact le_trans (List.length_filter_le _ _) hps
  have hres : (searchFuzzy sim docs q none 1 pageSize).1 =
      (sortRankDesc ((docs.filter (fun d =>
        (decide ((3 : ℚ)/10 < sim d.title q) ||
          decide ((3 : ℚ)/10 < sim (contentOrEmpty d) q)) &&
        rowPassesFilters none d)).map (fun d =>
          (d, sim d.title q * 2 + sim (contentOrEmpty d) q)))).map
        (fun r => (r.1, pyFloatOrZero r.2)) := by
    rw [searchFuzzy]
    simp only [Nat.sub_self, Nat.zero_mul, List.drop_zero]
    rw [List.take_of_length_le hlen]
  have hmem : ∀ d r, (d, r) ∈ (searchFuzzy sim docs q none 1 pageSize).1 ↔
      (d ∈ docs ∧
        ((3 : ℚ)/10 < sim d.title q ∨ (3 : ℚ)/10 < sim (contentOrEmpty d) q)) ∧
      r = sim d.title q * 2 + sim (contentOrEmpty d) q := by
    intro d r
    rw [hres, List.mem_map]
    constructor
    · rintro ⟨⟨d0, r0⟩, hin, heq⟩
      rw [mem_sortRankDesc, List.mem_map] at hin
      obtain ⟨d1, hd1, heq1⟩ := hin
      rw [Prod.mk.injEq] at heq1
      obtain ⟨rfl, rfl⟩ := heq1
      rw [Prod.mk.injEq, pyFloatOrZero_eq] at heq
      obtain ⟨rfl, rfl⟩ := heq
      have hf := List.mem_filter.mp hd1
      refine ⟨⟨hf.1, ?_⟩, rfl⟩
      have hb := hf.2
      rw [Bool.and_eq_true, Bool.or_eq_true, decide_eq_true_iff,
        decide_eq_true_iff] at hb
      exact hb.1
    · rintro ⟨⟨hd, hcond⟩, rfl⟩
      refine ⟨(d, sim d.title q * 2 + sim (contentOrEmpty d) q), ?_, ?_⟩
      · rw [mem_sortRankDesc, List.mem_map]
        refine ⟨d, List.mem_filter.mpr ⟨hd, ?_⟩, rfl⟩
        rw [Bool.and_eq_true, Bool.or_eq_true, decide_eq_true_iff,
          decide_eq_true_iff]
        exact ⟨hcond, rfl⟩
      · rw [pyFloatOrZero_eq]
  constructor
  · intro d
    constructor
    · rintro ⟨r, hr⟩
      exact ((hmem d r).mp hr).1
    · intro hcond
      exact ⟨sim d.title q * 2 + sim (contentOrEmpty d) q,
        (hmem d _).mpr ⟨hcond, rfl⟩⟩
  · intro d r hr
    exact ((hmem d r).mp hr).2

/-- Example fixture for C7: equality-similarity oracle (1 when the two
strings are equal, else 0). -/
def exSim : String → String → ℚ := fun a b => if a = b then 1 else 0

/-- Example fixture for C7: a matching and a non-matching document. -/
def exDocHit : Document :=
  { id := 1, title := "abc", content := none, ownerId := 1, createdAt := 0,
    meta := [] }

/-- Witness for C7: on the singleton corpus queried with `"abc"`, the
matching document's returned rank is `2 = 1·2 + 0`, by the rank clause of
the theorem applied at that concrete row. -/
theorem fuzzy_membership_and_rank_witness :
    [exDocHit].length ≤ 10 ∧
    (2 : ℚ) = exSim exDocHit.title "abc" * 2 + exSim (contentOrEmpty exDocHit) "abc" :=
  ⟨by decide,
    (fuzzy_membership_and_rank exSim [exDocHit] "abc" 10
      (by decide)).2 exDocHit 2 (by
        have h1 : (3 : ℚ)/10 < 1 := by norm_num
        simp [searchFuzzy, exSim, exDocHit, contentOrEmpty, rowPassesFilters,
          sortRankDesc, insertRankDesc, pyFloatOrZero, decide_eq_true h1])⟩

/-- Claim C8 (divergence): the boolean query `"test &"` (a trailing
operator) is malformed `to_tsquery` syntax, and `_search_boolean` lets
the resulting store error escape unhandled, so the operation surfaces as
the framework's 500 internal failure — not as the 400-class `InvalidQuery`
domain refusal the specification requires. No `InvalidQuery` error exists
anywhere in the source, and the only sanitization is a comment. Stated
for every corpus, filter set, page and store oracle. -/
theorem boolean_malformed_surfaces_500 (tsMatch : Document → String → Bool)
    (tsRank : Document → String → ℚ) (docs : List Document)
    (filters : Option SearchFilters) (page pageSize : Nat) :
    tsqueryValid "test &" = false ∧
    searchBooleanService tsMatch tsRank docs "test &" filters page pageSize =
      Except.error (SearchFailure.dbSyntaxError "test &") ∧
    searchBooleanStatus tsMatch tsRank docs "test &" filters page pageSize = 500 := by
  have hval : tsqueryValid "test &" = false := by decide
  refine ⟨hval, ?_, ?_⟩
  · rw [searchBooleanService, hval]
    simp
  · rw [searchBooleanStatus, searchBooleanService, hval]
    simp

/-- Claim C9: `verify_password` is a total Boolean function — the
`try/except` around `bcrypt.checkpw` turns every raised exception
(including those from malformed or non-hash stored strings) into `false`,
and passes a normal Boolean return through unchanged. Stated for every
behaviour of the `checkpw` oracle and every pair of input strings. -/
theorem verify_password_never_raises
    (checkpw : String → String → Except String Bool) (plain hashed : String) :
    (∀ msg, checkpw plain hashed = Except.error msg →
      verifyPassword checkpw plain hashed = false) ∧
    (∀ b, checkpw plain hashed = Except.ok b →
      verifyPassword checkpw plain hashed = b) := by
  constructor
  · intro msg h
    rw [verifyPassword, h]
  · intro b h
    rw [verifyPassword, h]

/-- Witness for C9: an oracle that raises `Invalid salt` — as bcrypt does
on the non-hash string `"not-a-bcrypt-hash"` — makes `verify_password`
return `false` rather than propagate the exception. -/
theorem verify_password_never_raises_witness :
    verifyPassword (fun _ _ => Except.error "Invalid salt") "password123"
      "not-a-bcrypt-hash" = false :=
  (verify_password_never_raises (fun _ _ => Except.error "Invalid salt")
    "password123" "not-a-bcrypt-hash").1 "Invalid salt" rfl

/-- Claim C3 (divergence): a successful `POST /roles` role creation
commits with the audit log unchanged — zero `AuditLog` rows are inserted,
where the claim demands exactly one in the mutation's transaction. (The
user-role assignment endpoints do write their row, but `create_new_role`,
`update_existing_role`, `delete_existing_role` and the permission
attach/detach endpoints never call `AuditService`.) -/
theorem role_create_inserts_no_audit (st : DbState) (newId actorId : Nat)
    (name : String) (description : Option String) (st2 : DbState) (role : Role)
    (hok : createNewRole st newId actorId name description =
      Except.ok (st2, role)) :
    st2.auditLogs = st.auditLogs := by
  rw [createNewRole.eq_def] at hok
  split at hok
  · exact absurd hok (by simp)
  · rw [Except.ok.injEq, Prod.mk.injEq] at hok
    rw [← hok.1]

/-- Example fixture for C3: the role row `POST /roles` inserts for the
fresh name `"TestRole"`. -/
def exRoleCreated : Role :=
  { id := 5, name := "TestRole", description := none, isSystem := false,
    permissions := [] }

/-- Witness for C3: creating `"TestRole"` on an empty store succeeds and
leaves `audit_logs` exactly as it was (empty) — the failing input of the
claim. -/
theorem role_create_inserts_no_audit_witness :
    createNewRole { roles := [], users := [], auditLogs := [] } 5 1 "TestRole"
        none =
      Except.ok ({ roles := [exRoleCreated], users := [], auditLogs := [] },
        exRoleCreated) ∧
    (({ roles := [exRoleCreated], users := [], auditLogs := [] } : DbState)).auditLogs =
      (({ roles := [], users := [], auditLogs := [] } : DbState)).auditLogs :=
  ⟨by rfl,
    role_create_inserts_no_audit { roles := [], users := [], auditLogs := [] }
      5 1 "TestRole" none _ exRoleCreated (by rfl)⟩
